import Mathlib

/-!
Verification of the FPL transfer optimizer.

The repository has two copies of the optimizer core:
src/fpl-optimizer/python/optimize_transfers.py (namespace `Fpl` below) and the
copy inlined in src/api/optimize.py (namespace `Api`).  Each copy is embedded
separately; shared material (the data model, the stable-sort model of the
Python `list.sort(key=..., reverse=True)` call, and the small helpers that the
two copies spell identically) is defined once at top level.

Numbers are modelled over ℚ.  Binary MILP decision variables are modelled as
Bool-valued assignments; the paired linear inequalities the source uses to pin
a binary variable (`t >= e` and `t <= e`) appear as the corresponding Boolean
equation.  The branch-and-bound solver is opaque in the source, so the solve
step is modelled by a `SolverOutcome` input: an `optimal` outcome carries the
variable assignment the solver would return, and claims about optimal runs
hypothesise exactly what an optimal solver status guarantees, namely that the
assignment satisfies every constraint of the built model (`Feasible`) and
maximises the objective (`objVal`) over all assignments satisfying them.
Python exceptions (the `KeyError` raised by indexing `by_position` or
`pos_counts` with an unknown position code) are modelled with `Except`.
-/

/-- A per-gameweek projection value as found in the player JSON: either an
explicit null or a number.  A gameweek absent from the record is modelled by
absence from the association list `Player.ep`. -/
inductive EpVal where
  | null : EpVal
  | num (q : ℚ) : EpVal
deriving DecidableEq

/-- A player record: the fields of the catalog entries that
optimize_transfers.py reads (`id`, `position`, `team`, `price`, the optional
`selling_price`, and the sparse `ep_gw<n>` projections). -/
structure Player where
  id : Int
  position : Int
  team : Int
  price : ℚ
  selling_price : Option ℚ
  ep : List (Nat × EpVal)
deriving DecidableEq

/-- The `pos_counts` dictionary of the non-optimal diagnostic branch:
counts for position codes 1 (GK), 2 (DEF), 3 (MID), 4 (FWD). -/
structure PosCounts where
  gk : Nat
  df : Nat
  md : Nat
  fw : Nat
deriving DecidableEq

/-- The result dictionary both copies of optimize_transfers return: the
optional `error` message plus squad, transfer lists, transfer count, point
hit and expected points. -/
structure ResultT where
  error : Option String
  squad : List Int
  transfers_in : List Player
  transfers_out : List Player
  total_transfers : Int
  point_hit : Int
  expected_points : ℚ
deriving DecidableEq

/-- A valuation of the decision variables of the built MILP: the binary
squad-selection variables `x`, the sparse binary transfer variables `t_in`
and `t_out` (read at a player id), and the integer auxiliaries
`num_transfers` and `hits`. -/
structure Assignment where
  x : Int → Bool
  tIn : Int → Bool
  tOut : Int → Bool
  numTransfers : Int
  hits : Int

/-- The outcome of the opaque solve step: an optimal status together with the
assignment the solver produced, or a non-optimal status name
(Infeasible, Unbounded, Not Solved, Undefined). -/
inductive SolverOutcome where
  | optimal (A : Assignment)
  | nonOptimal (status : String)

/-!  A model of Python's stable sort.  `by_position[pos].sort(key=lambda x:
x[1], reverse=True)` sorts descending by key while keeping elements with
equal keys in their original relative order; that behaviour determines the
output uniquely, and `sortDesc` below computes it by stable insertion. -/

/-- Insert `a` into `l` before the first element whose key is at most
`key a`, so that among equal keys the earlier original element stays first. -/
def insertDesc (key : α → ℚ) (a : α) : List α → List α
  | [] => [a]
  | b :: bs => if key a < key b then b :: insertDesc key a bs else a :: b :: bs

/-- Stable sort descending by `key`: the behaviour of Python's
`sort(key=..., reverse=True)`. -/
def sortDesc (key : α → ℚ) : List α → List α
  | [] => []
  | a :: l => insertDesc key a (sortDesc key l)

/-!  Helpers the two source files spell identically. -/

/-- The expression `p.get(f"ep_gw{gw}", 0) or 0`: a missing key yields the
default 0, a present null is coerced to 0 by `or`, and a number is itself
(Python's `q or 0` equals `q` numerically, since it only maps a zero to 0). -/
def epVal (p : Player) (gw : Nat) : ℚ :=
  match p.ep.lookup gw with
  | none => 0
  | some EpVal.null => 0
  | some (EpVal.num q) => q

/-- Lookup in the dictionary `players_by_id = {p["id"]: p for p in all_players}`;
with duplicate ids the comprehension keeps the last record. -/
def players_by_id_find (ps : List Player) (pid : Int) : Option Player :=
  ps.reverse.find? (fun p => p.id == pid)

/-- The diagnostic `sum(players_by_id[pid]["price"] for pid in current_squad
if pid in players_by_id)`. -/
def squad_value (cs : List Int) (ps : List Player) : ℚ :=
  ((cs.filterMap (players_by_id_find ps)).map (fun p => p.price)).sum

/-- One step of the `pos_counts` tally: indexing the dictionary with keys
1..4 raises a KeyError on any other position code. -/
def bumpPos (pc : PosCounts) (pos : Int) : Except String PosCounts :=
  if pos == 1 then .ok { pc with gk := pc.gk + 1 }
  else if pos == 2 then .ok { pc with df := pc.df + 1 }
  else if pos == 3 then .ok { pc with md := pc.md + 1 }
  else if pos == 4 then .ok { pc with fw := pc.fw + 1 }
  else .error "KeyError"

/-- The loop `for pid in current_squad: if pid in players_by_id:
pos_counts[players_by_id[pid]["position"]] += 1` of the non-optimal branch. -/
def computePosCounts (ps : List Player) : List Int → PosCounts → Except String PosCounts
  | [], pc => .ok pc
  | pid :: rest, pc =>
    match players_by_id_find ps pid with
    | none => computePosCounts ps rest pc
    | some p =>
      match bumpPos pc p.position with
      | .ok pc2 => computePosCounts ps rest pc2
      | .error e => .error e

/-- Rendering of the `pos_counts` dictionary inside an f-string. -/
def posCountsStr (pc : PosCounts) : String :=
  "\x7b1: " ++ toString pc.gk ++ ", 2: " ++ toString pc.df ++ ", 3: " ++ toString pc.md
    ++ ", 4: " ++ toString pc.fw ++ "\x7d"

/-- Rounding to two decimal places, modelling `round(expected_points, 2)`. -/
def round2 (q : ℚ) : ℚ := ((round (q * 100) : ℤ) : ℚ) / 100

/-- The string `needle` occurs contiguously inside `hay`. -/
def mentions (needle hay : String) : Prop := needle.data <:+: hay.data

/-!  Expressions of the built MILP shared by the two copies (the model-building
code of the two files is identical token for token).  Sums of a binary
variable times a coefficient over a candidate list are written as sums of an
if-then-else, and sums of binary variables over the sparse `t_in` / `t_out`
dictionaries as counts over their key lists. -/

/-- Value of `lpSum(x[p["id"]] for p in filtered_players)`:
the number of list entries whose selection variable is set. -/
def selCount (filtered : List Player) (x : Int → Bool) : Nat :=
  (filtered.filter (fun p => x p.id)).length

/-- Value of `lpSum(x[p["id"]] for p in filtered_players if p["position"] == pos)`. -/
def posSelCount (filtered : List Player) (x : Int → Bool) (pos : Int) : Nat :=
  (filtered.filter (fun p => p.position == pos && x p.id)).length

/-- Value of `lpSum(x[p["id"]] for p in filtered_players if p["team"] == team)`. -/
def teamSelCount (filtered : List Player) (x : Int → Bool) (t : Int) : Nat :=
  (filtered.filter (fun p => p.team == t && x p.id)).length

/-- Value of `p["price"] * t_in[p["id"]]` summed over non-owned candidates. -/
def transfer_in_cost (cs : List Int) (filtered : List Player) (tIn : Int → Bool) : ℚ :=
  ((filtered.filter (fun p => !(cs.contains p.id))).map
    (fun p => if tIn p.id then p.price else 0)).sum

/-- Value of `p.get("selling_price", p["price"]) * t_out[p["id"]]` summed over
owned candidates. -/
def transfer_out_revenue (cs : List Int) (filtered : List Player) (tOut : Int → Bool) : ℚ :=
  ((filtered.filter (fun p => cs.contains p.id)).map
    (fun p => if tOut p.id then p.selling_price.getD p.price else 0)).sum

/-- Key list of the sparse dictionary `t_in` (one binary variable per distinct
non-owned candidate id). -/
def tInIds (cs : List Int) (filtered : List Player) : List Int :=
  ((filtered.filter (fun p => !(cs.contains p.id))).map (fun p => p.id)).dedup

/-- Key list of the sparse dictionary `t_out` (one binary variable per distinct
owned id present in the candidate set). -/
def tOutIds (cs : List Int) (filtered : List Player) : List Int :=
  (cs.filter (fun pid => (filtered.map (fun p => p.id)).contains pid)).dedup

/-- Value of `lpSum(t_in.values())`. -/
def tInCount (cs : List Int) (filtered : List Player) (tIn : Int → Bool) : Nat :=
  ((tInIds cs filtered).filter tIn).length

/-- Value of `lpSum(t_out.values())`. -/
def tOutCount (cs : List Int) (filtered : List Player) (tOut : Int → Bool) : Nat :=
  ((tOutIds cs filtered).filter tOut).length

/-- Lookup in the dictionary `player_ep = {p["id"]: gep(p) for p in
filtered_players}` (with duplicate ids the last record wins; ids outside the
candidate list never occur where the code reads the dictionary). -/
def player_ep_val (filtered : List Player) (gep : Player → ℚ) (pid : Int) : ℚ :=
  match filtered.reverse.find? (fun p => p.id == pid) with
  | some p => gep p
  | none => 0

/-- Value of the objective's gross term
`lpSum(x[p["id"]] * player_ep[p["id"]] for p in filtered_players)`. -/
def epSum (filtered : List Player) (gep : Player → ℚ) (x : Int → Bool) : ℚ :=
  (filtered.map (fun p => if x p.id then player_ep_val filtered gep p.id else 0)).sum

/-!  The standalone copy: src/fpl-optimizer/python/optimize_transfers.py. -/

namespace Fpl

/-- Horizon weights, discounting future gameweeks. -/
def HORIZON_WEIGHTS : List ℚ := [1.0, 0.85, 0.7, 0.55, 0.4, 0.3, 0.2, 0.15]

/-- Position constraints: the dictionary of (position code, required count). -/
def POSITION_LIMITS : List (Int × Nat) := [(1, 2), (2, 5), (3, 5), (4, 3)]

/-- Maximum players from any single team. -/
def MAX_PER_TEAM : Nat := 3

/-- Point hit per extra transfer. -/
def POINT_HIT_PENALTY : Int := 4

/-- The per-candidate score of prefilter_players:
`sum(p.get(f"ep_gw{gw}", 0) or 0 for gw in range(1, min(horizon + 1, 9)))`,
the projected points summed over gameweeks 1 .. min(horizon, 8). -/
def total_ep (p : Player) (horizon : Nat) : ℚ :=
  ((List.range' 1 (min horizon 8)).map (fun gw => epVal p gw)).sum

/-- The `affordable` list of prefilter_players: non-owned players
(`p["id"] not in current_squad_set`) priced within the budget. -/
def affordable_non_squad (all_players : List Player) (cs : List Int) (budget : ℚ) : List Player :=
  (all_players.filter (fun p => !(cs.contains p.id))).filter
    (fun p => decide (p.price ≤ budget))

/-- The list `by_position[pos]` built by grouping `affordable` (order of
first appearance is preserved, as in the Python append loop). -/
def position_group (all_players : List Player) (cs : List Int) (budget : ℚ)
    (pos : Int) : List Player :=
  (affordable_non_squad all_players cs budget).filter (fun p => p.position == pos)

/-- `by_position[pos]` after `sort(key=lambda x: x[1], reverse=True)`. -/
def sorted_position_group (all_players : List Player) (cs : List Int) (budget : ℚ)
    (horizon : Nat) (pos : Int) : List Player :=
  sortDesc (fun p => total_ep p horizon) (position_group all_players cs budget pos)

/-- `keep_count = max(30, len(by_position[pos]) // 2)`. -/
def keep_count (n : Nat) : Nat := max 30 (n / 2)

/-- `by_position[pos][:keep_count]` after the sort. -/
def kept_group (all_players : List Player) (cs : List Int) (budget : ℚ)
    (horizon : Nat) (pos : Int) : List Player :=
  (sorted_position_group all_players cs budget horizon pos).take
    (keep_count (position_group all_players cs budget pos).length)

/-- prefilter_players: keeps every owned player, then for positions 1..4 in
dictionary order the top `keep_count` affordable non-owned players by
`total_ep`.  Appending an affordable player whose position code is outside
the fixed dictionary keys 1..4 raises a KeyError. -/
def prefilter_players (all_players : List Player) (cs : List Int) (budget : ℚ)
    (horizon : Nat) : Except String (List Player) :=
  if (affordable_non_squad all_players cs budget).all
      (fun p => p.position == 1 || p.position == 2 || p.position == 3 || p.position == 4) then
    .ok ((all_players.filter (fun p => cs.contains p.id))
      ++ kept_group all_players cs budget horizon 1
      ++ kept_group all_players cs budget horizon 2
      ++ kept_group all_players cs budget horizon 3
      ++ kept_group all_players cs budget horizon 4)
  else .error "KeyError"

/-- `HORIZON_WEIGHTS[gw - 1] if gw <= len(HORIZON_WEIGHTS) else 0.1`
(the list index never defaults for gw in 1..8). -/
def horizonWeight (gw : Nat) : ℚ :=
  if gw ≤ HORIZON_WEIGHTS.length then HORIZON_WEIGHTS.getD (gw - 1) 0 else 0.1

/-- get_expected_points: the weighted projected points
`sum of ep * weight for gw in range(1, min(horizon + 1, len(HORIZON_WEIGHTS) + 1))`. -/
def get_expected_points (p : Player) (horizon : Nat) : ℚ :=
  ((List.range' 1 (min horizon HORIZON_WEIGHTS.length)).map
    (fun gw => epVal p gw * horizonWeight gw)).sum

/-- The constraint set of the MILP built by optimize_transfers, in source
order: squad size, position limits, budget (with
`available_bank = bank if bank is not None else budget`), per-team cap, the
two-sided transfer-linkage inequalities (equivalent to the stated Boolean
equations for binary variables), transfer balance, the definition of
num_transfers, the max-transfers cap, the declared lower bounds of the
integer auxiliaries, and the hits lower bound. -/
def Feasible (cs : List Int) (filtered : List Player) (budget : ℚ) (bank : Option ℚ)
    (free_transfers max_transfers : Int) (A : Assignment) : Prop :=
  selCount filtered A.x = 15 ∧
  (∀ pl ∈ POSITION_LIMITS, posSelCount filtered A.x pl.1 = pl.2) ∧
  transfer_in_cost cs filtered A.tIn - transfer_out_revenue cs filtered A.tOut
      ≤ bank.getD budget ∧
  (∀ t ∈ filtered.map (fun p => p.team), teamSelCount filtered A.x t ≤ MAX_PER_TEAM) ∧
  (∀ p ∈ filtered,
      (p.id ∈ cs → A.tOut p.id = !(A.x p.id)) ∧
      (p.id ∉ cs → A.tIn p.id = A.x p.id)) ∧
  tInCount cs filtered A.tIn = tOutCount cs filtered A.tOut ∧
  A.numTransfers = (tInCount cs filtered A.tIn : Int) ∧
  A.numTransfers ≤ max_transfers ∧
  0 ≤ A.numTransfers ∧
  0 ≤ A.hits ∧
  A.numTransfers - free_transfers ≤ A.hits

/-- The objective `lpSum(x[p] * player_ep[p]) - POINT_HIT_PENALTY * hits`. -/
def objVal (filtered : List Player) (horizon : Nat) (A : Assignment) : ℚ :=
  epSum filtered (fun p => get_expected_points p horizon) A.x
    - (POINT_HIT_PENALTY : ℚ) * (A.hits : ℚ)

/-- The diagnostic message of the non-optimal branch. -/
def error_msg (status : String) (budget : ℚ) (squad_val : ℚ) (pc : PosCounts) : String :=
  "Optimization failed with status: " ++ status ++ ". Budget: £" ++ toString budget
    ++ "m, Squad value: £" ++ toString squad_val ++ "m, Positions: " ++ posCountsStr pc

/-- Solution extraction on an optimal status: selected candidates are those
whose binary variable reads above 0.5 (here: whose Boolean is true), the
transfer lists come from the sparse dictionaries, and expected points are the
gross weighted points of the final squad minus the point hit, rounded. -/
def extractResult (cs : List Int) (all_players filtered : List Player) (horizon : Nat)
    (A : Assignment) : ResultT :=
  let final_squad := (filtered.filter (fun p => A.x p.id)).map (fun p => p.id)
  let tin_ids := (tInIds cs filtered).filter A.tIn
  let tout_ids := (tOutIds cs filtered).filter A.tOut
  let point_hit := A.hits * POINT_HIT_PENALTY
  let gross := (final_squad.map
    (player_ep_val filtered (fun p => get_expected_points p horizon))).sum
  { error := none
    squad := final_squad
    transfers_in := tin_ids.filterMap (players_by_id_find all_players)
    transfers_out := tout_ids.filterMap (players_by_id_find all_players)
    total_transfers := A.numTransfers
    point_hit := point_hit
    expected_points := round2 (gross - (point_hit : ℚ)) }

/-- optimize_transfers after the opaque solve: pre-filtering happens before
any model is built or solved (its KeyError propagates), an optimal status is
extracted, and a non-optimal status produces the fallback result carrying the
diagnostic message (the `pos_counts` tally of that branch can itself raise a
KeyError). -/
def optimize_transfers (cs : List Int) (all_players : List Player) (budget : ℚ)
    (free_transfers : Int) (horizon : Nat) (max_transfers : Int) (bank : Option ℚ)
    (outcome : SolverOutcome) : Except String ResultT := do
  let filtered ← prefilter_players all_players cs budget horizon
  match outcome with
  | .optimal A => return extractResult cs all_players filtered horizon A
  | .nonOptimal status => do
      let current_value := squad_value cs all_players
      let pc ← computePosCounts all_players cs ⟨0, 0, 0, 0⟩
      return { error := some (error_msg status budget current_value pc)
               squad := cs
               transfers_in := []
               transfers_out := []
               total_transfers := 0
               point_hit := 0
               expected_points := 0 }

end Fpl

/-!  The serverless copy: the optimizer inlined in src/api/optimize.py.
Its model-building code is token-for-token the code of the standalone copy;
only the non-optimal branch's message differs. -/

namespace Api

/-- Horizon weights, discounting future gameweeks. -/
def HORIZON_WEIGHTS : List ℚ := [1.0, 0.85, 0.7, 0.55, 0.4, 0.3, 0.2, 0.15]

/-- Position constraints: the dictionary of (position code, required count). -/
def POSITION_LIMITS : List (Int × Nat) := [(1, 2), (2, 5), (3, 5), (4, 3)]

/-- Maximum players from any single team. -/
def MAX_PER_TEAM : Nat := 3

/-- Point hit per extra transfer. -/
def POINT_HIT_PENALTY : Int := 4

/-- The per-candidate score of this copy's prefilter_players. -/
def total_ep (p : Player) (horizon : Nat) : ℚ :=
  ((List.range' 1 (min horizon 8)).map (fun gw => epVal p gw)).sum

/-- The `affordable` list of this copy's prefilter_players. -/
def affordable_non_squad (all_players : List Player) (cs : List Int) (budget : ℚ) : List Player :=
  (all_players.filter (fun p => !(cs.contains p.id))).filter
    (fun p => decide (p.price ≤ budget))

/-- The list `by_position[pos]` of this copy. -/
def position_group (all_players : List Player) (cs : List Int) (budget : ℚ)
    (pos : Int) : List Player :=
  (affordable_non_squad all_players cs budget).filter (fun p => p.position == pos)

/-- `by_position[pos]` after the stable descending sort. -/
def sorted_position_group (all_players : List Player) (cs : List Int) (budget : ℚ)
    (horizon : Nat) (pos : Int) : List Player :=
  sortDesc (fun p => total_ep p horizon) (position_group all_players cs budget pos)

/-- `keep_count = max(30, len(by_position[pos]) // 2)`. -/
def keep_count (n : Nat) : Nat := max 30 (n / 2)

/-- `by_position[pos][:keep_count]` after the sort. -/
def kept_group (all_players : List Player) (cs : List Int) (budget : ℚ)
    (horizon : Nat) (pos : Int) : List Player :=
  (sorted_position_group all_players cs budget horizon pos).take
    (keep_count (position_group all_players cs budget pos).length)

/-- This copy's prefilter_players (identical logic). -/
def prefilter_players (all_players : List Player) (cs : List Int) (budget : ℚ)
    (horizon : Nat) : Except String (List Player) :=
  if (affordable_non_squad all_players cs budget).all
      (fun p => p.position == 1 || p.position == 2 || p.position == 3 || p.position == 4) then
    .ok ((all_players.filter (fun p => cs.contains p.id))
      ++ kept_group all_players cs budget horizon 1
      ++ kept_group all_players cs budget horizon 2
      ++ kept_group all_players cs budget horizon 3
      ++ kept_group all_players cs budget horizon 4)
  else .error "KeyError"

/-- This copy's weight lookup. -/
def horizonWeight (gw : Nat) : ℚ :=
  if gw ≤ HORIZON_WEIGHTS.length then HORIZON_WEIGHTS.getD (gw - 1) 0 else 0.1

/-- This copy's get_expected_points. -/
def get_expected_points (p : Player) (horizon : Nat) : ℚ :=
  ((List.range' 1 (min horizon HORIZON_WEIGHTS.length)).map
    (fun gw => epVal p gw * horizonWeight gw)).sum

/-- The constraint set of the MILP built by this copy (identical logic). -/
def Feasible (cs : List Int) (filtered : List Player) (budget : ℚ) (bank : Option ℚ)
    (free_transfers max_transfers : Int) (A : Assignment) : Prop :=
  selCount filtered A.x = 15 ∧
  (∀ pl ∈ POSITION_LIMITS, posSelCount filtered A.x pl.1 = pl.2) ∧
  transfer_in_cost cs filtered A.tIn - transfer_out_revenue cs filtered A.tOut
      ≤ bank.getD budget ∧
  (∀ t ∈ filtered.map (fun p => p.team), teamSelCount filtered A.x t ≤ MAX_PER_TEAM) ∧
  (∀ p ∈ filtered,
      (p.id ∈ cs → A.tOut p.id = !(A.x p.id)) ∧
      (p.id ∉ cs → A.tIn p.id = A.x p.id)) ∧
  tInCount cs filtered A.tIn = tOutCount cs filtered A.tOut ∧
  A.numTransfers = (tInCount cs filtered A.tIn : Int) ∧
  A.numTransfers ≤ max_transfers ∧
  0 ≤ A.numTransfers ∧
  0 ≤ A.hits ∧
  A.numTransfers - free_transfers ≤ A.hits

/-- This copy's objective. -/
def objVal (filtered : List Player) (horizon : Nat) (A : Assignment) : ℚ :=
  epSum filtered (fun p => get_expected_points p horizon) A.x
    - (POINT_HIT_PENALTY : ℚ) * (A.hits : ℚ)

/-- The message of this copy's non-optimal branch: it interpolates only the
solver status (the branch still computes the squad value and position counts,
but does not embed them). -/
def error_msg (status : String) : String :=
  "Optimization failed: " ++ status

/-- This copy's solution extraction (identical logic). -/
def extractResult (cs : List Int) (all_players filtered : List Player) (horizon : Nat)
    (A : Assignment) : ResultT :=
  let final_squad := (filtered.filter (fun p => A.x p.id)).map (fun p => p.id)
  let tin_ids := (tInIds cs filtered).filter A.tIn
  let tout_ids := (tOutIds cs filtered).filter A.tOut
  let point_hit := A.hits * POINT_HIT_PENALTY
  let gross := (final_squad.map
    (player_ep_val filtered (fun p => get_expected_points p horizon))).sum
  { error := none
    squad := final_squad
    transfers_in := tin_ids.filterMap (players_by_id_find all_players)
    transfers_out := tout_ids.filterMap (players_by_id_find all_players)
    total_transfers := A.numTransfers
    point_hit := point_hit
    expected_points := round2 (gross - (point_hit : ℚ)) }

/-- This copy's optimize_transfers after the opaque solve.  Its non-optimal
branch computes the same squad value and `pos_counts` tally (with the same
possible KeyError) but embeds only the status in the message. -/
def optimize_transfers (cs : List Int) (all_players : List Player) (budget : ℚ)
    (free_transfers : Int) (horizon : Nat) (max_transfers : Int) (bank : Option ℚ)
    (outcome : SolverOutcome) : Except String ResultT := do
  let filtered ← prefilter_players all_players cs budget horizon
  match outcome with
  | .optimal A => return extractResult cs all_players filtered horizon A
  | .nonOptimal status => do
      let current_value := squad_value cs all_players
      let pc ← computePosCounts all_players cs ⟨0, 0, 0, 0⟩
      return { error := some (error_msg status)
               squad := cs
               transfers_in := []
               transfers_out := []
               total_transfers := 0
               point_hit := 0
               expected_points := 0 }

end Api

/-!  Definitions used only by the statements of the claims. -/

/-- The left-hand side of the budget constraint as the spec words it: sum of
price times transferIn over newly bought players minus sum of sellingPrice
times transferOut over sold players, where a player's selling price defaults
to the purchase price when absent. -/
def spec_net_spend (cs : List Int) (filtered : List Player) (A : Assignment) : ℚ :=
  ((filtered.filter (fun p => !(cs.contains p.id))).map
      (fun p => p.price * (if A.tIn p.id then 1 else 0))).sum
  - ((filtered.filter (fun p => cs.contains p.id)).map
      (fun p => (match p.selling_price with
                 | some sp => sp
                 | none => p.price) * (if A.tOut p.id then 1 else 0))).sum

/-- The effective bank as the spec words it: the request's bank when
supplied, otherwise the total budget. -/
def spec_effective_bank (bank : Option ℚ) (budget : ℚ) : ℚ :=
  match bank with
  | some b => b
  | none => budget

/-- Replace a null projection value by the number 0. -/
def zeroNull : EpVal → EpVal
  | EpVal.null => EpVal.num 0
  | v => v

/-- Replace every null per-gameweek projection of a player by 0, leaving all
other fields unchanged. -/
def zeroNulls (p : Player) : Player :=
  { p with ep := p.ep.map (fun e => (e.1, zeroNull e.2)) }

/-- Forget the error message of a result (the two copies of the optimizer
agree on everything else). -/
def stripError (r : ResultT) : ResultT := { r with error := none }

/-!  Concrete data for witnesses and counterexamples. -/

/-- Shorthand for a player without selling price or projections. -/
def mkP (i pos team : Int) (price : ℚ) : Player :=
  { id := i, position := pos, team := team, price := price, selling_price := none, ep := [] }

/-- A valid 15-player catalog: 2 GK, 5 DEF, 5 MID, 3 FWD, all on distinct
teams, all priced 5, no projections. -/
def squadW : List Player :=
  [mkP 1 1 1 5, mkP 2 1 2 5,
   mkP 3 2 3 5, mkP 4 2 4 5, mkP 5 2 5 5, mkP 6 2 6 5, mkP 7 2 7 5,
   mkP 8 3 8 5, mkP 9 3 9 5, mkP 10 3 10 5, mkP 11 3 11 5, mkP 12 3 12 5,
   mkP 13 4 13 5, mkP 14 4 14 5, mkP 15 4 15 5]

/-- The ids of `squadW` as a current squad. -/
def csW : List Int := [1, 2, 3, 4, 5, 6, 7, 8, 9, 10, 11, 12, 13, 14, 15]

/-- The assignment keeping the whole current squad: every selection variable
set, every transfer variable clear, no transfers, no hits. -/
def Aall : Assignment :=
  { x := fun _ => true, tIn := fun _ => false, tOut := fun _ => false
    numTransfers := 0, hits := 0 }

/-- A player whose only projection sits in gameweek 9. -/
def p9 : Player :=
  { id := 70, position := 3, team := 1, price := 5, selling_price := none
    ep := [(9, EpVal.num 5)] }

/-- An owned player with unknown position code 5. -/
def c6Bad : Player := mkP 31 5 1 10

/-- A goalkeeper used in the C7 counterexample request. -/
def c7Gk : Player := mkP 41 1 1 10

/-- An owned player with unknown position code 7. -/
def c8Owned : Player := mkP 21 7 1 50

/-- A non-owned player with unknown position code 9, priced above budget. -/
def c8Rich : Player := mkP 22 9 1 1000

/-- An affordable non-owned player with unknown position code 8. -/
def c8Cheap : Player := mkP 23 8 1 50

/-- A player with a null projection entry for gameweek 2. -/
def pNull : Player :=
  { id := 51, position := 3, team := 1, price := 5, selling_price := none
    ep := [(2, EpVal.null)] }

/-- Two affordable same-position candidates for the C5 witness. -/
def c5ps : List Player :=
  [{ id := 61, position := 3, team := 1, price := 5, selling_price := none
     ep := [(1, EpVal.num 3)] },
   { id := 62, position := 3, team := 2, price := 5, selling_price := none
     ep := [(1, EpVal.num 7)] }]

instance (cs : List Int) (filtered : List Player) (budget : ℚ) (bank : Option ℚ)
    (ft mt : Int) (A : Assignment) :
    Decidable (Fpl.Feasible cs filtered budget bank ft mt A) := by
  unfold Fpl.Feasible
  infer_instance

/-!  Properties of the stable-sort model. -/

theorem perm_insertDesc (key : α → ℚ) (a : α) (l : List α) :
    (insertDesc key a l).Perm (a :: l) := by
  induction l with
  | nil => simp [insertDesc]
  | cons b bs ih =>
    simp only [insertDesc]
    split
    · exact (ih.cons b).trans (List.Perm.swap a b bs)
    · exact List.Perm.refl _

theorem sortDesc_perm (key : α → ℚ) (l : List α) : (sortDesc key l).Perm l := by
  induction l with
  | nil => simp [sortDesc]
  | cons a l ih => exact (perm_insertDesc key a (sortDesc key l)).trans (ih.cons a)

theorem mem_insertDesc (key : α → ℚ) (a : α) (l : List α) (v : α) :
    v ∈ insertDesc key a l ↔ v = a ∨ v ∈ l := by
  rw [(perm_insertDesc key a l).mem_iff, List.mem_cons]

theorem pairwise_insertDesc (key : α → ℚ) (a : α) (l : List α)
    (h : l.Pairwise (fun u v => key v ≤ key u)) :
    (insertDesc key a l).Pairwise (fun u v => key v ≤ key u) := by
  induction l with
  | nil => simp [insertDesc]
  | cons b bs ih =>
    rcases List.pairwise_cons.mp h with ⟨h₁, h₂⟩
    simp only [insertDesc]
    split
    · rename_i hlt
      refine List.pairwise_cons.mpr ⟨?_, ih h₂⟩
      intro v hv
      rcases (mem_insertDesc key a bs v).mp hv with hv | hv
      · exact hv ▸ le_of_lt hlt
      · exact h₁ v hv
    · rename_i hge
      refine List.pairwise_cons.mpr ⟨?_, h⟩
      intro v hv
      rcases List.mem_cons.mp hv with hv | hv
      · exact hv ▸ le_of_not_lt hge
      · exact (h₁ v hv).trans (le_of_not_lt hge)

theorem sortDesc_sorted (key : α → ℚ) (l : List α) :
    (sortDesc key l).Pairwise (fun u v => key v ≤ key u) := by
  induction l with
  | nil => simp [sortDesc]
  | cons a l ih => exact pairwise_insertDesc key a (sortDesc key l) ih

theorem self_sublist_insertDesc (key : α → ℚ) (a : α) (m : List α) :
    m.Sublist (insertDesc key a m) := by
  induction m with
  | nil => simp [insertDesc]
  | cons b bs ih =>
    simp only [insertDesc]
    split
    · exact ih.cons₂ b
    · exact (List.Sublist.refl (b :: bs)).cons a

theorem sublist_insertDesc (key : α → ℚ) (a : α) {l' m : List α}
    (h : l'.Sublist m) : l'.Sublist (insertDesc key a m) :=
  h.trans (self_sublist_insertDesc key a m)

theorem cons_sublist_insertDesc (key : α → ℚ) (c : α) {t' m : List α}
    (h : t'.Sublist m) (hle : ∀ b ∈ t', ¬ key c < key b) :
    (c :: t').Sublist (insertDesc key c m) := by
  induction m generalizing t' with
  | nil =>
    rw [List.sublist_nil.mp h]
    simp [insertDesc]
  | cons b bs ih =>
    simp only [insertDesc]
    split
    · rename_i hlt
      cases h with
      | cons _ h' => exact (ih h' hle).cons b
      | cons₂ _ h' => exact absurd hlt (hle b (List.mem_cons_self b _))
    · exact h.cons₂ c

theorem sortDesc_stable (key : α → ℚ) {l' l : List α} (h : l'.Sublist l)
    (hp : l'.Pairwise (fun u v => ¬ key u < key v)) :
    l'.Sublist (sortDesc key l) := by
  induction l generalizing l' with
  | nil => rw [List.sublist_nil.mp h]; exact List.nil_sublist _
  | cons c t ih =>
    cases h with
    | cons _ h' => exact sublist_insertDesc key c (ih h' hp)
    | cons₂ _ h' =>
      rcases List.pairwise_cons.mp hp with ⟨hc, hp'⟩
      exact cons_sublist_insertDesc key c (ih h' hp') hc

theorem insertDesc_map (key : β → ℚ) (key2 : α → ℚ) (f : α → β)
    (hk : ∀ u, key (f u) = key2 u) (a : α) (l : List α) :
    insertDesc key (f a) (l.map f) = (insertDesc key2 a l).map f := by
  induction l with
  | nil => simp [insertDesc]
  | cons b bs ih =>
    simp only [List.map_cons, insertDesc, hk]
    split
    · simp [ih]
    · simp

theorem sortDesc_map (key : β → ℚ) (key2 : α → ℚ) (f : α → β)
    (hk : ∀ u, key (f u) = key2 u) (l : List α) :
    sortDesc key (l.map f) = (sortDesc key2 l).map f := by
  induction l with
  | nil => simp [sortDesc]
  | cons a l ih =>
    simp only [List.map_cons, sortDesc, ih]
    exact insertDesc_map key key2 f hk a (sortDesc key2 l)

/-!  General helper lemmas. -/

theorem epSum_zero (filtered : List Player) (gep : Player → ℚ) (x : Int → Bool)
    (hz : ∀ p ∈ filtered, gep p = 0) : epSum filtered gep x = 0 := by
  apply List.sum_eq_zero
  intro q hq
  rcases List.mem_map.mp hq with ⟨p, hp, rfl⟩
  by_cases hx : x p.id
  · simp only [hx, if_true]
    unfold player_ep_val
    split
    · rename_i p' hp'
      exact hz p' (List.mem_reverse.mp (List.mem_of_find?_eq_some hp'))
    · rfl
  · simp [hx]

theorem gep_of_no_ep (p : Player) (h : Nat) (hep : p.ep = []) :
    Fpl.get_expected_points p h = 0 := by
  apply List.sum_eq_zero
  intro q hq
  rcases List.mem_map.mp hq with ⟨gw, _, rfl⟩
  simp [epVal, hep, List.lookup]

/-!  Claim C3: the flat fallback weight of 0.1 for gameweeks beyond the
weight sequence.  The loop bound `range(1, min(horizon + 1,
len(HORIZON_WEIGHTS) + 1))` already caps the gameweek at 8, so the
`else 0.1` branch of the weight expression is unreachable: gameweeks beyond
the 8th contribute nothing, whatever the horizon. -/

/-- Claim C3, counterexample: `p9` has its only (nonzero) projection in
gameweek 9, yet its weighted projected points at horizon 9 equal those at
horizon 8 (both are 0); in particular they are not strictly larger, and no
`5 * 0.1` term is included. -/
theorem gw9_projection_ignored_cex :
    Fpl.get_expected_points p9 9 = Fpl.get_expected_points p9 8
    ∧ ¬ Fpl.get_expected_points p9 8 < Fpl.get_expected_points p9 9
    ∧ epVal p9 9 = 5
    ∧ Fpl.get_expected_points p9 9 = 0 := by
  have h₁ : Fpl.get_expected_points p9 9 = Fpl.get_expected_points p9 8 := by
    with_unfolding_all rfl
  have h₂ : Fpl.get_expected_points p9 9 = 0 := by
    with_unfolding_all rfl
  exact ⟨h₁, by rw [h₁]; exact lt_irrefl _, by with_unfolding_all rfl, h₂⟩

/-- Claim C3, amended: in both copies of the optimizer the weighted
projected points at any horizon of at least 8 equal those at horizon 8 — the
loop never reaches a gameweek beyond the weight sequence, so the 0.1
fallback weight is unreachable and gameweeks past the 8th contribute
nothing. -/
theorem weighted_points_capped_at_eight (p : Player) (h : Nat) (hge : 8 ≤ h) :
    Fpl.get_expected_points p h = Fpl.get_expected_points p 8
    ∧ Api.get_expected_points p h = Api.get_expected_points p 8 := by
  have hmin : min h 8 = 8 := Nat.min_eq_right hge
  constructor
  · simp only [Fpl.get_expected_points, show Fpl.HORIZON_WEIGHTS.length = 8 from rfl,
      hmin, Nat.min_self]
  · simp only [Api.get_expected_points, show Api.HORIZON_WEIGHTS.length = 8 from rfl,
      hmin, Nat.min_self]

/-- Witness for the amended claim C3 at horizon 9. -/
theorem weighted_points_capped_at_eight_witness :
    Fpl.get_expected_points p9 9 = Fpl.get_expected_points p9 8 :=
  (weighted_points_capped_at_eight p9 9 (by decide)).1

/-!  Claim C9: the two copies of the optimizer core are equivalent. -/

/-- Claim C9: the copy of the optimizer in src/api/optimize.py is equivalent
to the standalone copy: the candidate filter, the weighted projected points,
the constraint set and the objective coincide; on an optimal solver status
the two return identical results; and on every outcome the results agree on
every field except the text of the error message. -/
theorem duplicate_cores_equivalent :
    (∀ ps cs budget horizon,
        Fpl.prefilter_players ps cs budget horizon
          = Api.prefilter_players ps cs budget horizon)
    ∧ (∀ p horizon, Fpl.get_expected_points p horizon = Api.get_expected_points p horizon)
    ∧ (∀ cs filtered budget bank ft mt A,
        Fpl.Feasible cs filtered budget bank ft mt A
          ↔ Api.Feasible cs filtered budget bank ft mt A)
    ∧ (∀ filtered horizon A, Fpl.objVal filtered horizon A = Api.objVal filtered horizon A)
    ∧ (∀ cs ps budget ft horizon mt bank A,
        Fpl.optimize_transfers cs ps budget ft horizon mt bank (.optimal A)
          = Api.optimize_transfers cs ps budget ft horizon mt bank (.optimal A))
    ∧ (∀ cs ps budget ft horizon mt bank o,
        (Fpl.optimize_transfers cs ps budget ft horizon mt bank o).map stripError
          = (Api.optimize_transfers cs ps budget ft horizon mt bank o).map stripError) := by
  refine ⟨fun _ _ _ _ => rfl, fun _ _ => rfl, fun _ _ _ _ _ _ _ => Iff.rfl,
    fun _ _ _ => rfl, fun _ _ _ _ _ _ _ _ => rfl, ?_⟩
  intro cs ps budget ft horizon mt bank o
  unfold Fpl.optimize_transfers Api.optimize_transfers
  rw [show Api.prefilter_players ps cs budget horizon
        = Fpl.prefilter_players ps cs budget horizon from rfl]
  cases hpf : Fpl.prefilter_players ps cs budget horizon with
  | error e => rfl
  | ok filtered =>
    cases o with
    | optimal A => rfl
    | nonOptimal status =>
      cases hpc : computePosCounts ps cs ⟨0, 0, 0, 0⟩ with
      | error e => rfl
      | ok pc => rfl

/-!  Claim C4: the budget constraint. -/

/-- Claim C4: the built model's budget constraint is the spec's statement:
its left side equals price-times-transferIn summed over non-owned candidates
minus sellingPrice-times-transferOut summed over owned candidates (selling
price defaulting to purchase price), its right side is the request's bank
when supplied and otherwise the total budget, and every feasible assignment
satisfies the inequality. -/
theorem budget_constraint_matches_spec (cs : List Int) (filtered : List Player)
    (budget : ℚ) (bank : Option ℚ) (ft mt : Int) (A : Assignment) :
    spec_net_spend cs filtered A
        = transfer_in_cost cs filtered A.tIn - transfer_out_revenue cs filtered A.tOut
    ∧ spec_effective_bank bank budget = bank.getD budget
    ∧ (Fpl.Feasible cs filtered budget bank ft mt A →
        spec_net_spend cs filtered A ≤ spec_effective_bank bank budget) := by
  have hin : ((filtered.filter (fun p => !(cs.contains p.id))).map
        (fun p => p.price * (if A.tIn p.id then 1 else 0))).sum
      = transfer_in_cost cs filtered A.tIn := by
    unfold transfer_in_cost
    congr 1
    apply List.map_congr_left
    intro p _
    by_cases h : A.tIn p.id <;> simp [h]
  have hout : ((filtered.filter (fun p => cs.contains p.id)).map
        (fun p => (match p.selling_price with
                   | some sp => sp
                   | none => p.price) * (if A.tOut p.id then 1 else 0))).sum
      = transfer_out_revenue cs filtered A.tOut := by
    unfold transfer_out_revenue
    congr 1
    apply List.map_congr_left
    intro p _
    by_cases h : A.tOut p.id <;> cases hs : p.selling_price <;> simp [h, hs]
  have h₁ : spec_net_spend cs filtered A
      = transfer_in_cost cs filtered A.tIn - transfer_out_revenue cs filtered A.tOut := by
    unfold spec_net_spend
    rw [hin, hout]
  have h₂ : spec_effective_bank bank budget = bank.getD budget := by
    cases bank <;> rfl
  refine ⟨h₁, h₂, fun hF => ?_⟩
  rw [h₁, h₂]
  exact hF.2.2.1

/-- Witness for claim C4 at a concrete feasible request. -/
theorem budget_constraint_matches_spec_witness :
    spec_net_spend csW squadW Aall ≤ spec_effective_bank none 100 :=
  (budget_constraint_matches_spec csW squadW 100 none 1 2 Aall).2.2
    (of_decide_eq_true (by with_unfolding_all rfl))

/-!  Claim C1: the point hit at an optimal solution. -/

/-- Claim C1: on an optimal solver status the reported point_hit equals
max(0, total_transfers - free_transfers) * 4.  The hits variable is bounded
below by 0 and by num_transfers - free_transfers; because the objective
subtracts the strictly positive constant 4 per hit, any optimal assignment
drives hits to exactly that maximum, so the extracted point_hit (hits * 4)
equals the formula. -/
theorem point_hit_eq_max_formula (cs : List Int) (ps : List Player) (budget : ℚ)
    (ft : Int) (horizon : Nat) (mt : Int) (bank : Option ℚ) (filtered : List Player)
    (A : Assignment) (r : ResultT)
    (hpf : Fpl.prefilter_players ps cs budget horizon = .ok filtered)
    (hA : Fpl.Feasible cs filtered budget bank ft mt A)
    (hopt : ∀ B, Fpl.Feasible cs filtered budget bank ft mt B →
        Fpl.objVal filtered horizon B ≤ Fpl.objVal filtered horizon A)
    (hr : Fpl.optimize_transfers cs ps budget ft horizon mt bank (.optimal A) = .ok r) :
    r.point_hit = max 0 (r.total_transfers - ft) * Fpl.POINT_HIT_PENALTY := by
  have hr' : r = Fpl.extractResult cs ps filtered horizon A := by
    unfold Fpl.optimize_transfers at hr
    rw [hpf] at hr
    exact (Except.ok.injEq _ _ ▸ congrArg id hr).symm
  obtain ⟨h1, h2, h3, h4, h5, h6, h7, h8, h9, h10, h11⟩ := hA
  set m : Int := max 0 (A.numTransfers - ft) with hm
  have hub : m ≤ A.hits := max_le h10 h11
  have hF2 : Fpl.Feasible cs filtered budget bank ft mt { A with hits := m } :=
    ⟨h1, h2, h3, h4, h5, h6, h7, h8, h9, le_max_left _ _, le_max_right _ _⟩
  have hle := hopt _ hF2
  unfold Fpl.objVal at hle
  rw [show ({ A with hits := m } : Assignment).x = A.x from rfl,
      show ({ A with hits := m } : Assignment).hits = m from rfl] at hle
  norm_num [Fpl.POINT_HIT_PENALTY] at hle
  have hhits : (A.hits : ℚ) ≤ (m : ℚ) := by linarith
  have heq : A.hits = m := le_antisymm (by exact_mod_cast hhits) hub
  rw [hr']
  show A.hits * Fpl.POINT_HIT_PENALTY = max 0 (A.numTransfers - ft) * Fpl.POINT_HIT_PENALTY
  rw [heq, hm]

/-- Optimality of keeping the whole squad on the witness request, in which
every projection is zero. -/
theorem c1_opt_helper (B : Assignment)
    (hB : Fpl.Feasible csW squadW 100 none 1 2 B) :
    Fpl.objVal squadW 3 B ≤ Fpl.objVal squadW 3 Aall := by
  have hnil : ∀ p ∈ squadW, p.ep = [] := by decide
  have hz : ∀ p ∈ squadW, (fun p => Fpl.get_expected_points p 3) p = 0 := by
    intro p hp
    exact gep_of_no_ep p 3 (hnil p hp)
  have h10 : 0 ≤ B.hits := hB.2.2.2.2.2.2.2.2.2.1
  unfold Fpl.objVal
  rw [epSum_zero _ _ _ hz, epSum_zero _ _ _ hz]
  have hc : (0:ℚ) ≤ (B.hits : ℚ) := by exact_mod_cast h10
  have hAh : ((Aall.hits : Int) : ℚ) = 0 := by norm_num [Aall]
  rw [hAh]
  norm_num [Fpl.POINT_HIT_PENALTY]
  linarith

/-- Witness for claim C1: on the witness request the solver-optimal
assignment makes no transfers, and the reported point hit is
max(0, 0 - 1) * 4 = 0. -/
theorem point_hit_eq_max_formula_witness :
    (Fpl.extractResult csW squadW squadW 3 Aall).point_hit
      = max 0 ((Fpl.extractResult csW squadW squadW 3 Aall).total_transfers - 1)
          * Fpl.POINT_HIT_PENALTY :=
  point_hit_eq_max_formula csW squadW 100 1 3 2 none squadW Aall _
    (by with_unfolding_all rfl)
    (of_decide_eq_true (by with_unfolding_all rfl))
    c1_opt_helper
    (by with_unfolding_all rfl)

/-!  Claim C2: max_transfers = 0 forces zero transfers and the current squad. -/

/-- Claim C2: with max_transfers = 0, the ≤ 0 cap on num_transfers together
with the balance and two-sided linkage constraints forces every owned
candidate selected and every non-owned candidate unselected in any feasible
assignment, so the extracted result reports zero transfers and a squad equal,
as a set of identifiers, to the current squad; and the non-optimal fallback
branch likewise returns the current squad with zero transfers. -/
theorem max_transfers_zero_keeps_squad (cs : List Int) (ps : List Player) (budget : ℚ)
    (ft : Int) (horizon : Nat) (bank : Option ℚ) (filtered : List Player)
    (hres : ∀ pid ∈ cs, ∃ p ∈ ps, p.id = pid)
    (hpf : Fpl.prefilter_players ps cs budget horizon = .ok filtered) :
    (∀ A, Fpl.Feasible cs filtered budget bank ft 0 A →
        (Fpl.extractResult cs ps filtered horizon A).total_transfers = 0
        ∧ ∀ pid, pid ∈ (Fpl.extractResult cs ps filtered horizon A).squad ↔ pid ∈ cs)
    ∧ (∀ status r,
        Fpl.optimize_transfers cs ps budget ft horizon 0 bank (.nonOptimal status) = .ok r →
        r.total_transfers = 0 ∧ r.squad = cs) := by
  constructor
  · intro A hF
    obtain ⟨h1, h2, h3, h4, h5, h6, h7, h8, h9, h10, h11⟩ := hF
    have hnt : A.numTransfers = 0 := le_antisymm h8 h9
    have hin0 : tInCount cs filtered A.tIn = 0 := by
      have := h7.symm.trans hnt
      exact_mod_cast this
    have hout0 : tOutCount cs filtered A.tOut = 0 := h6 ▸ hin0
    have hTin : ∀ i ∈ tInIds cs filtered, A.tIn i = false := by
      intro i hi
      have hfil := List.filter_eq_nil_iff.mp (List.length_eq_zero.mp hin0)
      have := hfil i hi
      simpa using this
    have hTout : ∀ i ∈ tOutIds cs filtered, A.tOut i = false := by
      intro i hi
      have hfil := List.filter_eq_nil_iff.mp (List.length_eq_zero.mp hout0)
      have := hfil i hi
      simpa using this
    have hOwnedSel : ∀ p ∈ filtered, p.id ∈ cs → A.x p.id = true := by
      intro p hp hmem
      have hlink := (h5 p hp).1 hmem
      have hidsmem : p.id ∈ tOutIds cs filtered := by
        apply List.mem_dedup.mpr
        apply List.mem_filter.mpr
        refine ⟨hmem, ?_⟩
        simp only [List.elem_eq_mem, decide_eq_true_eq]
        exact List.mem_map.mpr ⟨p, hp, rfl⟩
      have hzero := hTout p.id hidsmem
      rw [hzero] at hlink
      cases hx : A.x p.id
      · rw [hx] at hlink; simp at hlink
      · rfl
    have hNonSel : ∀ p ∈ filtered, p.id ∉ cs → A.x p.id = false := by
      intro p hp hmem
      have hlink := (h5 p hp).2 hmem
      have hidsmem : p.id ∈ tInIds cs filtered := by
        apply List.mem_dedup.mpr
        apply List.mem_map.mpr
        refine ⟨p, List.mem_filter.mpr ⟨hp, ?_⟩, rfl⟩
        simpa using hmem
      have hzero := hTin p.id hidsmem
      rw [hzero] at hlink
      exact hlink.symm
    constructor
    · show A.numTransfers = 0
      exact hnt
    · intro pid
      show pid ∈ (filtered.filter (fun p => A.x p.id)).map (fun p => p.id) ↔ pid ∈ cs
      constructor
      · intro hmem
        rcases List.mem_map.mp hmem with ⟨p, hpf', rfl⟩
        rcases List.mem_filter.mp hpf' with ⟨hp, hx⟩
        by_cases hcs : p.id ∈ cs
        · exact hcs
        · rw [hNonSel p hp hcs] at hx
          simp at hx
      · intro hmem
        rcases hres pid hmem with ⟨p, hps, rfl⟩
        have hpfil : p ∈ filtered := by
          unfold Fpl.prefilter_players at hpf
          split at hpf
          · have hfl := (Except.ok.injEq _ _ ▸ hpf)
            rw [← hfl]
            refine List.mem_append_left _ (List.mem_append_left _
              (List.mem_append_left _ (List.mem_append_left _ ?_)))
            apply List.mem_filter.mpr
            refine ⟨hps, ?_⟩
            simpa using hmem
          · exact absurd hpf (by simp)
        apply List.mem_map.mpr
        exact ⟨p, List.mem_filter.mpr ⟨hpfil, hOwnedSel p hpfil hmem⟩, rfl⟩
  · intro status r h
    unfold Fpl.optimize_transfers at h
    rw [hpf] at h
    cases hpc : computePosCounts ps cs ⟨0, 0, 0, 0⟩ with
    | error e =>
      rw [hpc] at h
      simp [Bind.bind, Except.bind] at h
    | ok pc =>
      rw [hpc] at h
      have h2 := h
      simp only [Bind.bind, Except.bind, pure, Except.pure, Except.ok.injEq] at h2
      rw [← h2]
      exact ⟨rfl, rfl⟩

/-- Witness for claim C2 on the concrete witness request (max_transfers 0):
the feasible all-keep assignment reports zero transfers and keeps player 5. -/
theorem max_transfers_zero_keeps_squad_witness :
    (Fpl.extractResult csW squadW squadW 3 Aall).total_transfers = 0
    ∧ (5 ∈ (Fpl.extractResult csW squadW squadW 3 Aall).squad ↔ 5 ∈ csW) := by
  have h := max_transfers_zero_keeps_squad csW squadW 100 1 3 none squadW
    (of_decide_eq_true (by with_unfolding_all rfl))
    (by with_unfolding_all rfl)
  have h2 := h.1 Aall (of_decide_eq_true (by with_unfolding_all rfl))
  exact ⟨h2.1, h2.2 5⟩

/-!  Claim C6: behaviour on a non-optimal solver status. -/

/-- The `pos_counts` tally succeeds whenever every current-squad id that
resolves in the catalog has a known position code. -/
theorem computePosCounts_ok_helper (ps : List Player) :
    ∀ cs : List Int,
    (∀ pid ∈ cs, (players_by_id_find ps pid).all
        (fun p => p.position == 1 || p.position == 2 || p.position == 3 || p.position == 4)
        = true) →
    ∀ init, ∃ pc, computePosCounts ps cs init = .ok pc := by
  intro cs
  induction cs with
  | nil => exact fun _ init => ⟨init, rfl⟩
  | cons pid rest ih =>
    intro hpos init
    have hrest := fun q hq => hpos q (List.mem_cons_of_mem _ hq)
    cases hf : players_by_id_find ps pid with
    | none =>
      rcases ih hrest init with ⟨pc, hpc⟩
      exact ⟨pc, by simp only [computePosCounts, hf]; exact hpc⟩
    | some p =>
      have hp := hpos pid (List.mem_cons_self _ _)
      rw [hf] at hp
      simp only [Option.all_some, Bool.or_eq_true, beq_iff_eq] at hp
      rcases hp with ((h | h) | h) | h
      all_goals {
        rcases ih hrest _ with ⟨pc, hpc⟩
        exact ⟨pc, by simp only [computePosCounts, hf, bumpPos, h]; simpa using hpc⟩
      }

/-- Claim C6, counterexample: a request whose current squad contains a
catalog player with unknown position code 5 passes pre-filtering (the model
is built), yet on a non-optimal status the failure branch raises a KeyError
while tallying `pos_counts` instead of returning the fallback result. -/
theorem nonoptimal_branch_raises_cex :
    Fpl.optimize_transfers [31] [c6Bad] 100 1 3 2 none (.nonOptimal "Infeasible")
      = .error "KeyError"
    ∧ (Fpl.prefilter_players [c6Bad] [31] 100 3).isOk = true := by
  constructor
  · with_unfolding_all rfl
  · with_unfolding_all rfl

/-- Claim C6, amended: on a non-optimal solver status, provided every
current-squad player that resolves in the catalog has a known position code
(1..4), both copies return — rather than raise — a result with the unchanged
current squad, empty transfer lists, zero transfers, zero point hit, zero
expected points, and an error message; without that proviso the failure
branch itself raises a KeyError while computing its diagnostic position
counts. -/
theorem nonoptimal_returns_fallback (cs : List Int) (ps : List Player) (budget : ℚ)
    (ft : Int) (horizon : Nat) (mt : Int) (bank : Option ℚ) (status : String)
    (filtered : List Player)
    (hpf : Fpl.prefilter_players ps cs budget horizon = .ok filtered)
    (hpos : ∀ pid ∈ cs, (players_by_id_find ps pid).all
        (fun p => p.position == 1 || p.position == 2 || p.position == 3 || p.position == 4)
        = true) :
    (∃ msg, Fpl.optimize_transfers cs ps budget ft horizon mt bank (.nonOptimal status)
        = .ok { error := some msg, squad := cs, transfers_in := [], transfers_out := [],
                total_transfers := 0, point_hit := 0, expected_points := 0 })
    ∧ (∃ msg, Api.optimize_transfers cs ps budget ft horizon mt bank (.nonOptimal status)
        = .ok { error := some msg, squad := cs, transfers_in := [], transfers_out := [],
                total_transfers := 0, point_hit := 0, expected_points := 0 }) := by
  rcases computePosCounts_ok_helper ps cs hpos ⟨0, 0, 0, 0⟩ with ⟨pc, hpc⟩
  constructor
  · refine ⟨Fpl.error_msg status budget (squad_value cs ps) pc, ?_⟩
    unfold Fpl.optimize_transfers
    rw [hpf]
    simp only [Bind.bind, Except.bind, hpc, pure, Except.pure]
  · refine ⟨Api.error_msg status, ?_⟩
    unfold Api.optimize_transfers
    rw [show Api.prefilter_players ps cs budget horizon
          = Fpl.prefilter_players ps cs budget horizon from rfl, hpf]
    simp only [Bind.bind, Except.bind, hpc, pure, Except.pure]

/-- Witness for the amended claim C6 on the concrete witness request. -/
theorem nonoptimal_returns_fallback_witness :
    (Fpl.optimize_transfers csW squadW 100 1 3 2 none (.nonOptimal "Infeasible")).isOk
      = true := by
  rcases (nonoptimal_returns_fallback csW squadW 100 1 3 2 none "Infeasible" squadW
      (by with_unfolding_all rfl)
      (of_decide_eq_true (by with_unfolding_all rfl))).1 with ⟨msg, h⟩
  rw [h]
  rfl

/-!  Claim C7: contents of the diagnostic message. -/

theorem mentions_self (s : String) : mentions s s := List.infix_refl _

theorem mentions_append_left (a s t : String) (h : mentions s t) : mentions s (a ++ t) := by
  unfold mentions at h ⊢
  rw [String.data_append]
  exact h.trans (List.suffix_append a.data t.data).isInfix

theorem mentions_append_right (s t b : String) (h : mentions s t) : mentions s (t ++ b) := by
  unfold mentions at h ⊢
  rw [String.data_append]
  exact h.trans (List.prefix_append t.data b.data).isInfix

/-- Claim C7, counterexample: on a concrete request with budget 77 and a
one-goalkeeper current squad, the api copy's failure payload message is
exactly "Optimization failed: Infeasible"; it mentions neither the supplied
budget nor the position counts of the current squad. -/
theorem api_message_omits_budget_cex :
    Api.optimize_transfers [41] [c7Gk] 77 1 3 2 none (.nonOptimal "Infeasible")
      = .ok { error := some "Optimization failed: Infeasible", squad := [41],
              transfers_in := [], transfers_out := [], total_transfers := 0,
              point_hit := 0, expected_points := 0 }
    ∧ ¬ mentions (toString (77 : ℚ)) "Optimization failed: Infeasible"
    ∧ ¬ mentions (posCountsStr ⟨1, 0, 0, 0⟩) "Optimization failed: Infeasible" := by
  refine ⟨by with_unfolding_all rfl, ?_, ?_⟩
  · unfold mentions
    exact of_decide_eq_true (by with_unfolding_all rfl)
  · unfold mentions
    exact of_decide_eq_true (by with_unfolding_all rfl)

/-- Claim C7, amended: the standalone copy's diagnostic message mentions the
solver status, the supplied budget, and the position counts of the current
squad; the copy in src/api/optimize.py mentions only the solver status (its
message is built from the status alone, although the branch still computes
the squad value and position counts). -/
theorem diagnostic_message_mentions (status : String) (budget sv : ℚ) (pc : PosCounts) :
    mentions status (Fpl.error_msg status budget sv pc)
    ∧ mentions (toString budget) (Fpl.error_msg status budget sv pc)
    ∧ mentions (posCountsStr pc) (Fpl.error_msg status budget sv pc)
    ∧ mentions status (Api.error_msg status) := by
  unfold Fpl.error_msg Api.error_msg
  refine ⟨?_, ?_, ?_, ?_⟩
  · exact mentions_append_right _ _ _ (mentions_append_right _ _ _
      (mentions_append_right _ _ _ (mentions_append_right _ _ _
        (mentions_append_right _ _ _ (mentions_append_right _ _ _
          (mentions_append_left _ _ _ (mentions_self status)))))))
  · exact mentions_append_right _ _ _ (mentions_append_right _ _ _
      (mentions_append_right _ _ _ (mentions_append_right _ _ _
        (mentions_append_left _ _ _ (mentions_self (toString budget))))))
  · exact mentions_append_left _ _ _ (mentions_self (posCountsStr pc))
  · exact mentions_append_left _ _ _ (mentions_self status)

/-!  Claim C8: rejection of catalog entries with unknown position codes. -/

/-- Claim C8, counterexample: a currently owned player with unknown position
code 7 and a non-owned player with unknown position code 9 priced above the
budget both pass pre-filtering, so no rejection happens before the model is
built; with the owned invalid entry the whole optimal-status pipeline even
returns a result. -/
theorem invalid_position_not_always_rejected_cex :
    (Fpl.prefilter_players [c8Owned] [21] 100 3).isOk = true
    ∧ (Fpl.prefilter_players [c8Rich] [] 100 3).isOk = true
    ∧ (Fpl.optimize_transfers [21] [c8Owned] 100 1 3 2 none (.optimal Aall)).isOk
        = true := by
  refine ⟨?_, ?_, ?_⟩
  · with_unfolding_all rfl
  · with_unfolding_all rfl
  · with_unfolding_all rfl

/-- Claim C8, amended: a structurally invalid catalog entry (unknown position
code) is rejected before any model is built exactly when it is an affordable
non-owned player: pre-filtering fails if and only if some affordable
non-owned candidate has a position outside 1..4, in which case the whole
request is rejected whatever the solver would have answered.  Invalid
entries that are owned, or priced above the budget, pass the filter. -/
theorem rejection_iff_affordable_invalid (ps : List Player) (cs : List Int)
    (budget : ℚ) (horizon : Nat) (ft mt : Int) (bank : Option ℚ) :
    ((Fpl.prefilter_players ps cs budget horizon).isOk = false
      ↔ ∃ p ∈ Fpl.affordable_non_squad ps cs budget,
          ¬(p.position = 1 ∨ p.position = 2 ∨ p.position = 3 ∨ p.position = 4))
    ∧ ((∃ p ∈ Fpl.affordable_non_squad ps cs budget,
          ¬(p.position = 1 ∨ p.position = 2 ∨ p.position = 3 ∨ p.position = 4)) →
        ∀ outcome, Fpl.optimize_transfers cs ps budget ft horizon mt bank outcome
          = .error "KeyError") := by
  have hiff : (Fpl.affordable_non_squad ps cs budget).all
        (fun p => p.position == 1 || p.position == 2 || p.position == 3 || p.position == 4)
        = false
      ↔ ∃ p ∈ Fpl.affordable_non_squad ps cs budget,
          ¬(p.position = 1 ∨ p.position = 2 ∨ p.position = 3 ∨ p.position = 4) := by
    constructor
    · intro hall
      have : ¬ ((Fpl.affordable_non_squad ps cs budget).all
          (fun p => p.position == 1 || p.position == 2 || p.position == 3 || p.position == 4)
          = true) := by
        rw [hall]
        simp
      rw [List.all_eq_true] at this
      push_neg at this
      rcases this with ⟨p, hp, hval⟩
      refine ⟨p, hp, ?_⟩
      simpa [Bool.or_eq_true, beq_iff_eq, or_assoc] using hval
    · intro ⟨p, hp, hval⟩
      cases hall : (Fpl.affordable_non_squad ps cs budget).all
          (fun p => p.position == 1 || p.position == 2 || p.position == 3 || p.position == 4) with
      | false => rfl
      | true =>
        have := List.all_eq_true.mp hall p hp
        exact absurd (by simpa [Bool.or_eq_true, beq_iff_eq, or_assoc] using this) hval
  have hpf : ∀ h : (Fpl.affordable_non_squad ps cs budget).all
        (fun p => p.position == 1 || p.position == 2 || p.position == 3 || p.position == 4)
        = false,
      Fpl.prefilter_players ps cs budget horizon = .error "KeyError" := by
    intro h
    unfold Fpl.prefilter_players
    rw [h]
    rfl
  constructor
  · constructor
    · intro hnotok
      apply hiff.mp
      by_contra hall
      have htrue : (Fpl.affordable_non_squad ps cs budget).all
          (fun p => p.position == 1 || p.position == 2 || p.position == 3 || p.position == 4)
          = true := by
        cases h : (Fpl.affordable_non_squad ps cs budget).all
            (fun p => p.position == 1 || p.position == 2 || p.position == 3 || p.position == 4)
        · exact absurd h hall
        · rfl
      unfold Fpl.prefilter_players at hnotok
      rw [htrue] at hnotok
      simp [Except.isOk, Except.toBool] at hnotok
    · intro hex
      rw [hpf (hiff.mpr hex)]
      rfl
  · intro hex outcome
    unfold Fpl.optimize_transfers
    rw [hpf (hiff.mpr hex)]
    rfl

/-- Witness for the amended claim C8: an affordable non-owned entry with
unknown position code 8 makes the whole request fail with the KeyError
before any model is built, whatever the solver outcome would have been. -/
theorem rejection_iff_affordable_invalid_witness :
    Fpl.optimize_transfers [] [c8Cheap] 100 1 3 2 none (.nonOptimal "Undefined")
      = .error "KeyError" :=
  (rejection_iff_affordable_invalid [c8Cheap] [] 100 3 1 2 none).2
    ⟨c8Cheap, of_decide_eq_true (by with_unfolding_all rfl), by decide⟩
    (.nonOptimal "Undefined")

/-!  Claim C5: the candidate reducer keeps the sorted prefix of each
position group. -/

/-- Claim C5: whenever the affordable non-owned candidates all carry known
position codes (so the grouping does not raise), the reducer returns every
currently owned player followed, for each of the four position groups of
affordable non-owned players, by exactly the first max(30, group size / 2)
players of the group sorted by horizon-truncated summed projected points in
descending order; the sorted group is a permutation of the group, is sorted
descending, and breaks ties by original catalog order (a pair in original
order with equal keys stays in that order), which is precisely Python's
stable descending sort. -/
theorem prefilter_keeps_sorted_front (ps : List Player) (cs : List Int) (budget : ℚ)
    (horizon : Nat)
    (hvalid : ∀ p ∈ Fpl.affordable_non_squad ps cs budget,
        p.position = 1 ∨ p.position = 2 ∨ p.position = 3 ∨ p.position = 4) :
    Fpl.prefilter_players ps cs budget horizon
      = .ok ((ps.filter (fun p => cs.contains p.id))
          ++ Fpl.kept_group ps cs budget horizon 1
          ++ Fpl.kept_group ps cs budget horizon 2
          ++ Fpl.kept_group ps cs budget horizon 3
          ++ Fpl.kept_group ps cs budget horizon 4)
    ∧ ∀ pos : Int,
        Fpl.kept_group ps cs budget horizon pos
          = (Fpl.sorted_position_group ps cs budget horizon pos).take
              (max 30 ((Fpl.position_group ps cs budget pos).length / 2))
        ∧ (Fpl.sorted_position_group ps cs budget horizon pos).Perm
            (Fpl.position_group ps cs budget pos)
        ∧ (Fpl.sorted_position_group ps cs budget horizon pos).Pairwise
            (fun a b => Fpl.total_ep b horizon ≤ Fpl.total_ep a horizon)
        ∧ ∀ a b : Player, Fpl.total_ep a horizon = Fpl.total_ep b horizon →
            [a, b].Sublist (Fpl.position_group ps cs budget pos) →
            [a, b].Sublist (Fpl.sorted_position_group ps cs budget horizon pos) := by
  have hc : (Fpl.affordable_non_squad ps cs budget).all
      (fun p => p.position == 1 || p.position == 2 || p.position == 3 || p.position == 4)
      = true := by
    rw [List.all_eq_true]
    intro p hp
    rcases hvalid p hp with h | h | h | h <;> simp [h]
  constructor
  · unfold Fpl.prefilter_players
    rw [if_pos hc]
  · intro pos
    refine ⟨rfl, sortDesc_perm _ _, sortDesc_sorted _ _, ?_⟩
    intro a b heq hsub
    apply sortDesc_stable _ hsub
    refine List.pairwise_cons.mpr ⟨?_, List.pairwise_singleton _ _⟩
    intro v hv
    rcases List.mem_singleton.mp hv with rfl
    rw [heq]
    exact lt_irrefl _

/-- Witness for claim C5 on a concrete catalog of two affordable same-position
candidates. -/
theorem prefilter_keeps_sorted_front_witness :
    Fpl.prefilter_players c5ps [] 10 3
      = .ok ((c5ps.filter (fun p => ([] : List Int).contains p.id))
          ++ Fpl.kept_group c5ps [] 10 3 1
          ++ Fpl.kept_group c5ps [] 10 3 2
          ++ Fpl.kept_group c5ps [] 10 3 3
          ++ Fpl.kept_group c5ps [] 10 3 4) :=
  (prefilter_keeps_sorted_front c5ps [] 10 3
    (of_decide_eq_true (by with_unfolding_all rfl))).1

/-!  Claim C10: null projections behave exactly like missing ones. -/

theorem lookup_zeroNull (gw : Nat) (l : List (Nat × EpVal)) :
    List.lookup gw (l.map (fun e => (e.1, zeroNull e.2)))
      = (List.lookup gw l).map zeroNull := by
  induction l with
  | nil => rfl
  | cons e es ih =>
    by_cases h : (gw == e.1) = true
    · simp [List.lookup, h]
    · simp only [Bool.not_eq_true] at h
      simp [List.lookup, h, ih]

theorem epVal_zeroNulls (p : Player) (gw : Nat) : epVal (zeroNulls p) gw = epVal p gw := by
  unfold epVal zeroNulls
  simp only [lookup_zeroNull]
  cases h : p.ep.lookup gw with
  | none => rfl
  | some v => cases v <;> rfl

theorem total_ep_zeroNulls (p : Player) (h : Nat) :
    Fpl.total_ep (zeroNulls p) h = Fpl.total_ep p h := by
  unfold Fpl.total_ep
  congr 1
  apply List.map_congr_left
  intro gw _
  exact epVal_zeroNulls p gw

theorem gep_zeroNulls (p : Player) (h : Nat) :
    Fpl.get_expected_points (zeroNulls p) h = Fpl.get_expected_points p h := by
  unfold Fpl.get_expected_points
  congr 1
  apply List.map_congr_left
  intro gw _
  rw [epVal_zeroNulls]

theorem filter_map_zeroNulls (q : Player → Bool) (hq : ∀ p, q (zeroNulls p) = q p)
    (l : List Player) :
    (l.map zeroNulls).filter q = (l.filter q).map zeroNulls := by
  rw [List.filter_map]
  congr 1
  apply List.filter_congr
  intro p _
  exact hq p

theorem all_map_zeroNulls (l : List Player) (q : Player → Bool) :
    (l.map zeroNulls).all q = l.all (fun p => q (zeroNulls p)) := by
  induction l with
  | nil => rfl
  | cons a t ih => simp [List.all_cons, ih]

theorem affordable_zeroNulls (ps : List Player) (cs : List Int) (budget : ℚ) :
    Fpl.affordable_non_squad (ps.map zeroNulls) cs budget
      = (Fpl.affordable_non_squad ps cs budget).map zeroNulls := by
  unfold Fpl.affordable_non_squad
  rw [filter_map_zeroNulls (fun p => !(cs.contains p.id)) (fun p => rfl),
    filter_map_zeroNulls (fun p => decide (p.price ≤ budget)) (fun p => rfl)]

theorem position_group_zeroNulls (ps : List Player) (cs : List Int) (budget : ℚ)
    (pos : Int) :
    Fpl.position_group (ps.map zeroNulls) cs budget pos
      = (Fpl.position_group ps cs budget pos).map zeroNulls := by
  unfold Fpl.position_group
  rw [affordable_zeroNulls, filter_map_zeroNulls (fun p => p.position == pos) (fun p => rfl)]

theorem sorted_group_zeroNulls (ps : List Player) (cs : List Int) (budget : ℚ)
    (horizon : Nat) (pos : Int) :
    Fpl.sorted_position_group (ps.map zeroNulls) cs budget horizon pos
      = (Fpl.sorted_position_group ps cs budget horizon pos).map zeroNulls := by
  unfold Fpl.sorted_position_group
  rw [position_group_zeroNulls]
  exact sortDesc_map _ _ zeroNulls (fun u => total_ep_zeroNulls u horizon) _

theorem kept_group_zeroNulls (ps : List Player) (cs : List Int) (budget : ℚ)
    (horizon : Nat) (pos : Int) :
    Fpl.kept_group (ps.map zeroNulls) cs budget horizon pos
      = (Fpl.kept_group ps cs budget horizon pos).map zeroNulls := by
  unfold Fpl.kept_group
  rw [sorted_group_zeroNulls, position_group_zeroNulls, List.length_map, List.map_take]

theorem prefilter_zeroNulls (ps : List Player) (cs : List Int) (budget : ℚ)
    (horizon : Nat) :
    Fpl.prefilter_players (ps.map zeroNulls) cs budget horizon
      = (Fpl.prefilter_players ps cs budget horizon).map (List.map zeroNulls) := by
  unfold Fpl.prefilter_players
  cases hall : (Fpl.affordable_non_squad ps cs budget).all
      (fun p => p.position == 1 || p.position == 2 || p.position == 3 || p.position == 4) with
  | true =>
    have hall2 : (Fpl.affordable_non_squad (ps.map zeroNulls) cs budget).all
        (fun p => p.position == 1 || p.position == 2 || p.position == 3 || p.position == 4)
        = true := by
      rw [affordable_zeroNulls, all_map_zeroNulls]
      exact hall
    rw [if_pos hall2, if_pos (rfl : true = true)]
    simp only [Except.map, List.map_append]
    rw [filter_map_zeroNulls (fun p => cs.contains p.id) (fun p => rfl),
      kept_group_zeroNulls, kept_group_zeroNulls, kept_group_zeroNulls, kept_group_zeroNulls]
  | false =>
    have hall2 : (Fpl.affordable_non_squad (ps.map zeroNulls) cs budget).all
        (fun p => p.position == 1 || p.position == 2 || p.position == 3 || p.position == 4)
        = false := by
      rw [affordable_zeroNulls, all_map_zeroNulls]
      exact hall
    rw [if_neg (by simp [hall2]), if_neg (by simp)]
    rfl

theorem selCount_zeroNulls (filtered : List Player) (x : Int → Bool) :
    selCount (filtered.map zeroNulls) x = selCount filtered x := by
  unfold selCount
  rw [filter_map_zeroNulls (fun p => x p.id) (fun p => rfl), List.length_map]

theorem posSelCount_zeroNulls (filtered : List Player) (x : Int → Bool) (pos : Int) :
    posSelCount (filtered.map zeroNulls) x pos = posSelCount filtered x pos := by
  unfold posSelCount
  rw [filter_map_zeroNulls (fun p => p.position == pos && x p.id) (fun p => rfl),
    List.length_map]

theorem teamSelCount_zeroNulls (filtered : List Player) (x : Int → Bool) (t : Int) :
    teamSelCount (filtered.map zeroNulls) x t = teamSelCount filtered x t := by
  unfold teamSelCount
  rw [filter_map_zeroNulls (fun p => p.team == t && x p.id) (fun p => rfl), List.length_map]

theorem in_cost_zeroNulls (cs : List Int) (filtered : List Player) (tIn : Int → Bool) :
    transfer_in_cost cs (filtered.map zeroNulls) tIn = transfer_in_cost cs filtered tIn := by
  unfold transfer_in_cost
  rw [filter_map_zeroNulls (fun p => !(cs.contains p.id)) (fun p => rfl), List.map_map]
  rfl

theorem out_rev_zeroNulls (cs : List Int) (filtered : List Player) (tOut : Int → Bool) :
    transfer_out_revenue cs (filtered.map zeroNulls) tOut
      = transfer_out_revenue cs filtered tOut := by
  unfold transfer_out_revenue
  rw [filter_map_zeroNulls (fun p => cs.contains p.id) (fun p => rfl), List.map_map]
  rfl

theorem tInIds_zeroNulls (cs : List Int) (filtered : List Player) :
    tInIds cs (filtered.map zeroNulls) = tInIds cs filtered := by
  unfold tInIds
  rw [filter_map_zeroNulls (fun p => !(cs.contains p.id)) (fun p => rfl), List.map_map]
  rfl

theorem tOutIds_zeroNulls (cs : List Int) (filtered : List Player) :
    tOutIds cs (filtered.map zeroNulls) = tOutIds cs filtered := by
  unfold tOutIds
  rw [List.map_map]
  rfl

theorem tInCount_zeroNulls (cs : List Int) (filtered : List Player) (tIn : Int → Bool) :
    tInCount cs (filtered.map zeroNulls) tIn = tInCount cs filtered tIn := by
  unfold tInCount
  rw [tInIds_zeroNulls]

theorem tOutCount_zeroNulls (cs : List Int) (filtered : List Player) (tOut : Int → Bool) :
    tOutCount cs (filtered.map zeroNulls) tOut = tOutCount cs filtered tOut := by
  unfold tOutCount
  rw [tOutIds_zeroNulls]

theorem team_list_zeroNulls (filtered : List Player) :
    (filtered.map zeroNulls).map (fun p => p.team) = filtered.map (fun p => p.team) := by
  rw [List.map_map]
  rfl

theorem player_ep_val_zeroNulls (filtered : List Player) (gep : Player → ℚ)
    (hg : ∀ p, gep (zeroNulls p) = gep p) (pid : Int) :
    player_ep_val (filtered.map zeroNulls) gep pid = player_ep_val filtered gep pid := by
  unfold player_ep_val
  have h1 : (filtered.map zeroNulls).reverse = filtered.reverse.map zeroNulls := by
    rw [List.map_reverse]
  rw [h1, List.find?_map]
  have h2 : ((fun p : Player => p.id == pid) ∘ zeroNulls) = (fun p : Player => p.id == pid) :=
    funext fun p => rfl
  rw [h2]
  cases h : filtered.reverse.find? (fun p => p.id == pid) with
  | none => rfl
  | some q => simp only [Option.map_some']; exact hg q

theorem epSum_zeroNulls (filtered : List Player) (gep : Player → ℚ)
    (hg : ∀ p, gep (zeroNulls p) = gep p) (x : Int → Bool) :
    epSum (filtered.map zeroNulls) gep x = epSum filtered gep x := by
  unfold epSum
  rw [List.map_map]
  congr 1
  apply List.map_congr_left
  intro p _
  show (if x p.id then player_ep_val (filtered.map zeroNulls) gep p.id else 0)
      = (if x p.id then player_ep_val filtered gep p.id else 0)
  rw [player_ep_val_zeroNulls filtered gep hg]

theorem feasible_zeroNulls (cs : List Int) (filtered : List Player) (budget : ℚ)
    (bank : Option ℚ) (ft mt : Int) (A : Assignment) :
    Fpl.Feasible cs (filtered.map zeroNulls) budget bank ft mt A
      ↔ Fpl.Feasible cs filtered budget bank ft mt A := by
  unfold Fpl.Feasible
  simp only [selCount_zeroNulls, posSelCount_zeroNulls, teamSelCount_zeroNulls,
    in_cost_zeroNulls, out_rev_zeroNulls, tInCount_zeroNulls, tOutCount_zeroNulls,
    team_list_zeroNulls, List.forall_mem_map]
  exact Iff.rfl

theorem objVal_zeroNulls (filtered : List Player) (horizon : Nat) (A : Assignment) :
    Fpl.objVal (filtered.map zeroNulls) horizon A = Fpl.objVal filtered horizon A := by
  unfold Fpl.objVal
  rw [epSum_zeroNulls filtered _ (fun p => gep_zeroNulls p horizon) A.x]

/-- Claim C10: a per-gameweek projection that is present but null is treated
exactly like a missing entry: both contribute zero, and replacing every null
projection by 0 changes neither the candidate reducer output (up to the same
replacement on the returned records), nor any constraint of the built model,
nor the objective. -/
theorem null_projection_like_missing :
    (∀ (p : Player) (gw : Nat), p.ep.lookup gw = some EpVal.null → epVal p gw = 0)
    ∧ (∀ (p : Player) (gw : Nat), p.ep.lookup gw = none → epVal p gw = 0)
    ∧ (∀ (p : Player) (gw : Nat), epVal (zeroNulls p) gw = epVal p gw)
    ∧ (∀ (p : Player) (h : Nat), Fpl.total_ep (zeroNulls p) h = Fpl.total_ep p h)
    ∧ (∀ (p : Player) (h : Nat),
        Fpl.get_expected_points (zeroNulls p) h = Fpl.get_expected_points p h)
    ∧ (∀ (ps : List Player) (cs : List Int) (budget : ℚ) (horizon : Nat),
        Fpl.prefilter_players (ps.map zeroNulls) cs budget horizon
          = (Fpl.prefilter_players ps cs budget horizon).map (List.map zeroNulls))
    ∧ (∀ (cs : List Int) (filtered : List Player) (budget : ℚ) (bank : Option ℚ)
        (ft mt : Int) (A : Assignment),
        Fpl.Feasible cs (filtered.map zeroNulls) budget bank ft mt A
          ↔ Fpl.Feasible cs filtered budget bank ft mt A)
    ∧ (∀ (filtered : List Player) (horizon : Nat) (A : Assignment),
        Fpl.objVal (filtered.map zeroNulls) horizon A = Fpl.objVal filtered horizon A) := by
  refine ⟨?_, ?_, epVal_zeroNulls, total_ep_zeroNulls, gep_zeroNulls,
    prefilter_zeroNulls, feasible_zeroNulls, objVal_zeroNulls⟩
  · intro p gw h
    unfold epVal
    rw [h]
  · intro p gw h
    unfold epVal
    rw [h]

/-- Witness for claim C10 on a player whose gameweek-2 projection is null and
whose gameweek-3 projection is missing: both read as zero. -/
theorem null_projection_like_missing_witness :
    epVal pNull 2 = 0 ∧ epVal pNull 3 = 0 :=
  ⟨null_projection_like_missing.1 pNull 2 (by decide),
   null_projection_like_missing.2.1 pNull 3 (by decide)⟩
